import Mathlib

/-!
Verification of the TBM translation assistant (browser app for translating
Korean construction-safety briefing documents).

Strings are modelled as lists of characters.  The external collaborators
(the AI model endpoint, the PDF rasterizer, the file reader and the speech
platform) are modelled as oracle arguments, so that every function below is
a shallow embedding of the corresponding function of the source:

* `stripFence` embeds the code-fence cleanup applied to model responses in
  `convertTextToMarkdown` and `translateText` (services/geminiService.ts);
* `extractTextFromImageData`, `convertTextToMarkdown`, `translateText` embed
  the three AI-client operations of services/geminiService.ts;
* `fileSelectPrologue`, `handleFileUpload`, `handleSpeakOrStop` embed the
  orchestration handlers of App.tsx;
* `selectVoice` embeds the voice-resolution logic of hooks/useTTS.ts.
-/

set_option maxRecDepth 4096
set_option linter.unusedVariables false

namespace TBM

/-- The whitespace class used by JS `String.prototype.trim` and by the `\s`
class of the fence pattern (ASCII part; the Unicode space characters play no
role in any statement below). -/
def wsp (c : Char) : Bool :=
  c == ' ' || c == '\t' || c == '\n' || c == '\r' || c == '\x0b' || c == '\x0c'

/-- The JS word-character class `\w`, i.e. `[A-Za-z0-9_]`. -/
def isWordChar (c : Char) : Bool :=
  c.isAlpha || c.isDigit || c == '_'

/-- Removal of leading whitespace (left half of `String.prototype.trim`). -/
def trimLeft (l : List Char) : List Char := l.dropWhile wsp

/-- Removal of trailing whitespace (right half of `String.prototype.trim`). -/
def trimRight (l : List Char) : List Char := (l.reverse.dropWhile wsp).reverse

/-- JS `String.prototype.trim`. -/
def trim (l : List Char) : List Char := trimRight (trimLeft l)

theorem trimRight_nil : trimRight [] = [] := rfl

theorem trimRight_cons (c : Char) (l : List Char) :
    trimRight (c :: l) =
      if trimRight l = [] then (if wsp c then [] else [c]) else c :: trimRight l := by
  unfold trimRight
  rw [show (c :: l).reverse = l.reverse ++ [c] by simp]
  rw [List.dropWhile_append]
  by_cases h : l.reverse.dropWhile wsp = []
  · rw [show (l.reverse.dropWhile wsp).isEmpty = true by simp [h]]
    rw [if_pos (by simp [h]), if_pos (by simp [h])]
    by_cases hc : wsp c <;> simp [hc, List.dropWhile]
  · rw [show (l.reverse.dropWhile wsp).isEmpty = false by
      cases hh : l.reverse.dropWhile wsp with
      | nil => exact absurd hh h
      | cons a as => rfl]
    rw [if_neg (by simp), if_neg (by simp [h])]
    simp

theorem trimRight_idem (l : List Char) : trimRight (trimRight l) = trimRight l := by
  unfold trimRight
  rw [List.reverse_reverse, List.dropWhile_idempotent]

/-- Left-trimming commutes with right-trimming. -/
theorem dropWhile_wsp_trimRight (l : List Char) :
    (trimRight l).dropWhile wsp = trimRight (l.dropWhile wsp) := by
  induction l with
  | nil => rfl
  | cons c cs ih =>
    rw [trimRight_cons]
    by_cases hr : trimRight cs = []
    · rw [if_pos hr]
      by_cases hc : wsp c
      · rw [List.dropWhile_cons_of_pos hc, ← ih, hr]
        simp [hc]
      · rw [List.dropWhile_cons_of_neg (by simp [hc]), trimRight_cons, if_pos hr,
          if_neg hc, List.dropWhile_cons_of_neg (by simp [hc])]
    · rw [if_neg hr]
      by_cases hc : wsp c
      · rw [List.dropWhile_cons_of_pos hc, List.dropWhile_cons_of_pos hc, ih]
      · rw [List.dropWhile_cons_of_neg (by simp [hc]),
          List.dropWhile_cons_of_neg (by simp [hc]), trimRight_cons, if_neg hr]

theorem trim_idem (l : List Char) : trim (trim l) = trim l := by
  unfold trim trimLeft
  rw [dropWhile_wsp_trimRight, List.dropWhile_idempotent, trimRight_idem]

theorem trim_eq_nil_iff (l : List Char) : trim l = [] ↔ ∀ c ∈ l, wsp c := by
  unfold trim trimRight trimLeft
  constructor
  · intro h c hc
    have h2 : (l.dropWhile wsp).reverse.dropWhile wsp = [] := by
      rwa [List.reverse_eq_nil_iff] at h
    rw [List.dropWhile_eq_nil_iff] at h2
    rw [← List.takeWhile_append_dropWhile (p := wsp) (l := l)] at hc
    rcases List.mem_append.mp hc with hmem | hmem
    · exact List.mem_takeWhile_imp hmem
    · exact h2 c (List.mem_reverse.mpr hmem)
  · intro h
    have h1 : l.dropWhile wsp = [] :=
      List.dropWhile_eq_nil_iff.mpr fun x hx => h x hx
    simp [h1]

theorem trimLeft_ne_nil_of_trim_ne_nil (l : List Char) (h : trim l ≠ []) :
    trimLeft l ≠ [] := by
  intro h0
  apply h
  unfold trim
  rw [show trimLeft l = l.dropWhile wsp from rfl] at h0 ⊢
  rw [h0]
  rfl

theorem trim_append_left_ne_nil (xs ys : List Char) (h : trim xs ≠ []) :
    trim (xs ++ ys) ≠ [] := by
  intro hc
  apply h
  rw [trim_eq_nil_iff] at hc ⊢
  intro c hcm
  exact hc c (List.mem_append_left _ hcm)

theorem trimLeft_cons_nonws {c : Char} (l : List Char) (hc : wsp c = false) :
    trimLeft (c :: l) = c :: l := by
  unfold trimLeft
  rw [List.dropWhile_cons_of_neg (by simp [hc])]

theorem trimRight_snoc_nonws {c : Char} (l : List Char) (hc : wsp c = false) :
    trimRight (l ++ [c]) = l ++ [c] := by
  unfold trimRight
  rw [List.reverse_append]
  simp [List.dropWhile_cons_of_neg, hc]

/-- Dropping a trailing whitespace character before right-trimming changes
nothing. -/
theorem trimRight_snoc_ws {c : Char} (l : List Char) (hc : wsp c = true) :
    trimRight (l ++ [c]) = trimRight l := by
  unfold trimRight
  rw [List.reverse_append]
  simp [List.dropWhile_cons_of_pos, hc]

/-! ## The code-fence cleanup of the AI client

`convertTextToMarkdown` and `translateText` both post-process the model
response with

  let cleanedText = markdownText.trim();
  const fenceRegex = /^```(\w*)?\s*\n?(.*?)\n?\s*```$/s;
  const match = cleanedText.match(fenceRegex);
  if (match && match[2]) { cleanedText = match[2].trim(); }

The regular expression is anchored at both ends, `$` without the `m` flag
only matches at the end of the (already right-trimmed) string, and the dot
matches newlines (`s` flag).  Its first-match semantics on a trimmed text
`t` therefore is: the pattern matches iff `t` begins with three backticks,
ends with three backticks and has length at least six; in a successful
match the greedy `(\w*)?` takes the maximal word-character run after the
opening delimiter, the greedy `\s*\n?` takes the maximal whitespace run
after it, the lazy `(.*?)` group stops as early as possible, and the tail
`\n?\s*` absorbs the maximal whitespace run before the closing delimiter.
Group 2 is hence the text strictly between the two delimiters, with the
language tag, the whitespace after it and the whitespace before the closing
delimiter removed.  `group2` below computes exactly that. -/

/-- A backtick. -/
def bq : Char := '\x60'

/-- The fenced-block delimiter: three backticks. -/
def fence : List Char := [bq, bq, bq]

/-- `startsWithL p l` is true iff `p` is a prefix of `l` (JS
`String.prototype.startsWith`). -/
def startsWithL : List Char → List Char → Bool
  | [], _ => true
  | _ :: _, [] => false
  | p :: ps, c :: cs => p == c && startsWithL ps cs

/-- Whether the fence pattern matches the (trimmed) text `t`: `t` starts
with the delimiter, ends with the delimiter, and is long enough for the two
delimiters to be disjoint. -/
def fenceMatches (t : List Char) : Bool :=
  startsWithL fence t && startsWithL fence t.reverse && decide (6 ≤ t.length)

/-- The text captured by the second group of the fence pattern: everything
strictly between the delimiters, minus the language tag (maximal `\w` run),
minus the whitespace following the tag and the whitespace preceding the
closing delimiter. -/
def group2 (t : List Char) : List Char :=
  trimRight ((((t.drop 3).take (t.length - 6)).dropWhile isWordChar).dropWhile wsp)

/-- `match && match[2]`: the pattern matched and the captured body is
non-empty (a JS empty string is falsy). -/
def strippable (t : List Char) : Bool :=
  fenceMatches t && !(group2 t).isEmpty

/-- The replacement applied to the trimmed response text. -/
def stripFenceCore (t : List Char) : List Char :=
  if strippable t then trim (group2 t) else t

/-- The whole cleanup: trim, then strip one enclosing fenced block (if the
pattern matches with a non-empty body). -/
def stripFence (s : List Char) : List Char :=
  stripFenceCore (trim s)

/-- A text wrapped in a single fenced block: opening delimiter, language
tag, newline, body, newline, closing delimiter. -/
def fenceWrap (lang body : List Char) : List Char :=
  fence ++ lang ++ '\n' :: (body ++ '\n' :: fence)

theorem stripFence_trimmed (s : List Char) : trim (stripFence s) = stripFence s := by
  unfold stripFence stripFenceCore
  by_cases h : strippable (trim s)
  · rw [if_pos h, trim_idem]
  · rw [if_neg h, trim_idem]

theorem trim_fenceWrap (lang body : List Char) :
    trim (fenceWrap lang body) = fenceWrap lang body := by
  have hsplit : fenceWrap lang body =
      (fence ++ lang ++ '\n' :: (body ++ ['\n', bq, bq])) ++ [bq] := by
    simp [fenceWrap, fence]
  unfold trim
  rw [show trimLeft (fenceWrap lang body) = fenceWrap lang body by
    rw [show fenceWrap lang body = bq :: (bq :: bq :: lang ++ '\n' :: (body ++ '\n' :: fence)) by
      simp [fenceWrap, fence]]
    exact trimLeft_cons_nonws _ (by decide)]
  rw [hsplit]
  exact trimRight_snoc_nonws _ (by decide)

theorem startsWithL_append_self (p l : List Char) : startsWithL p (p ++ l) = true := by
  induction p with
  | nil => rfl
  | cons c cs ih => simp [startsWithL, ih]

theorem fenceMatches_fenceWrap (lang body : List Char) :
    fenceMatches (fenceWrap lang body) = true := by
  have h1 : startsWithL fence (fenceWrap lang body) = true := by
    rw [show fenceWrap lang body = fence ++ (lang ++ '\n' :: (body ++ '\n' :: fence)) by
      simp [fenceWrap]]
    exact startsWithL_append_self _ _
  have hsplit : fenceWrap lang body =
      (fence ++ lang ++ '\n' :: (body ++ ['\n'])) ++ fence := by
    simp [fenceWrap, fence]
  have h2 : startsWithL fence (fenceWrap lang body).reverse = true := by
    rw [hsplit, List.reverse_append]
    rw [show fence.reverse = fence from by decide]
    exact startsWithL_append_self _ _
  have h3 : 6 ≤ (fenceWrap lang body).length := by
    simp [fenceWrap, fence]
    omega
  simp [fenceMatches, h1, h2, h3]

theorem group2_fenceWrap (lang body : List Char)
    (hlang : lang.all isWordChar = true) (hbody : trim body ≠ []) :
    group2 (fenceWrap lang body) = trim body := by
  have hdrop : (fenceWrap lang body).drop 3 = lang ++ '\n' :: (body ++ '\n' :: fence) := by
    rw [show fenceWrap lang body =
      bq :: (bq :: (bq :: (lang ++ '\n' :: (body ++ '\n' :: fence)))) by simp [fenceWrap, fence]]
    rfl
  have hlen : (fenceWrap lang body).length - 6 = lang.length + body.length + 2 := by
    simp [fenceWrap, fence]
    omega
  have hmid : ((fenceWrap lang body).drop 3).take ((fenceWrap lang body).length - 6) =
      lang ++ '\n' :: (body ++ ['\n']) := by
    rw [hdrop, hlen]
    rw [show lang ++ '\n' :: (body ++ '\n' :: fence) =
      (lang ++ '\n' :: (body ++ ['\n'])) ++ fence by simp]
    exact List.take_left' (by simp; omega)
  unfold group2
  rw [hmid]
  rw [List.dropWhile_append_of_pos (by
    intro a ha
    exact List.all_eq_true.mp hlang a ha)]
  rw [List.dropWhile_cons_of_neg (show ¬ (isWordChar '\n' = true) by decide)]
  rw [List.dropWhile_cons_of_pos (show wsp '\n' = true by decide)]
  have hleft : trimLeft body ≠ [] := trimLeft_ne_nil_of_trim_ne_nil body hbody
  rw [List.dropWhile_append]
  rw [show (body.dropWhile wsp).isEmpty = false by
    cases hh : body.dropWhile wsp with
    | nil => exact absurd hh hleft
    | cons a as => rfl]
  rw [if_neg (by simp)]
  rw [trimRight_snoc_ws _ (by decide)]
  rfl

/-- A Markdown-looking text wrapped in a single fenced block whose body is
itself a fenced block — exactly the shape the upstream model can produce
when it wraps structured output, nested. -/
def nestedFenceText : List Char := "```\n```\nhello\n```\n```".toList

/-- C1 counterexample: the fence-stripping transform of
`convertTextToMarkdown`/`translateText` is not idempotent.
`nestedFenceText` is a single fenced block (no language tag) whose inner
body is `"```\nhello\n```"`; one application returns that trimmed inner
body, but a second application strips again, returning `"hello"`, so
applying the transform a second time does change the result. -/
theorem c1_counterexample :
    stripFence (stripFence nestedFenceText) ≠ stripFence nestedFenceText := by
  decide

/-- C1 (amended): the fence-stripping transform first trims its input; on
every trimmed text on which the fence pattern does not match with a
non-empty captured body it returns the text unchanged; on a text consisting
of a single fenced block (optional word-character language tag, non-blank
body) it returns only the inner body, trimmed; and applying the transform a
second time changes nothing provided the first result is not itself again a
fenced block with non-empty body (as happens with nested fences). -/
theorem c1_fence_strip (lang body : List Char)
    (hlang : lang.all isWordChar = true) (hbody : trim body ≠ []) :
    stripFence (fenceWrap lang body) = trim body
    ∧ (∀ s : List Char, strippable (trim s) = false → stripFence s = trim s)
    ∧ (∀ s : List Char, strippable (stripFence s) = false →
        stripFence (stripFence s) = stripFence s) := by
  refine ⟨?_, ?_, ?_⟩
  · unfold stripFence
    rw [trim_fenceWrap]
    unfold stripFenceCore
    rw [if_pos (by
      rw [show strippable (fenceWrap lang body) =
        (fenceMatches (fenceWrap lang body) && !(group2 (fenceWrap lang body)).isEmpty) from rfl]
      rw [fenceMatches_fenceWrap, group2_fenceWrap lang body hlang hbody]
      cases hh : trim body with
      | nil => exact absurd hh hbody
      | cons a as => rfl)]
    rw [group2_fenceWrap lang body hlang hbody, trim_idem]
  · intro s h
    unfold stripFence stripFenceCore
    rw [h]
    simp
  · intro s h
    have ht : trim (stripFence s) = stripFence s := stripFence_trimmed s
    conv_lhs => rw [show stripFence (stripFence s) = stripFenceCore (trim (stripFence s)) from rfl]
    rw [ht]
    unfold stripFenceCore
    rw [h]
    simp

/-- C1 witness: the amended statement evaluated at the language tag `md`
and body `hello`. -/
theorem c1_witness :
    stripFence (fenceWrap ("md".toList) ("hello".toList)) = trim ("hello".toList) :=
  (c1_fence_strip ("md".toList) ("hello".toList) (by decide) (by decide)).1

/-! ## The AI service client (services/geminiService.ts)

The three operations share the credential check `ensureApiKeyIsConfigured`
(`process.env.API_KEY` must be a string that is non-empty after trimming)
and the error taxonomy of their catch blocks.  The network round-trip is an
oracle argument of type `SvcOutcome`: the upstream either yields a text
(`ok`), yields a non-text payload (`nonText`, mapped to the
"Unexpected response format" service error), or throws with a message
(`err`).  Each embedded operation returns the `Except` result together with
a flag recording whether the upstream service was actually called. -/

/-- The environment's `API_KEY` (`none` models undefined). -/
def keyConfigured : Option (List Char) → Bool
  | none => false
  | some k => !(trim k).isEmpty

/-- Oracle for one upstream model call. -/
inductive SvcOutcome where
  | ok (text : List Char)
  | nonText
  | err (msg : List Char)
deriving DecidableEq

/-- Typed rendering of the error messages thrown by the service module. -/
inductive GemErr where
  /-- "API Key for Gemini is not configured as expected ..." -/
  | config
  /-- "Invalid API Key for Gemini. ..." -/
  | invalidKey
  /-- interpolation of an upstream message into the OCR service error -/
  | ocrService (msg : List Char)
  /-- interpolation into the Markdown-conversion service error -/
  | mdService (msg : List Char)
  /-- interpolation into the translation service error -/
  | translateService (msg : List Char)
deriving DecidableEq

instance : DecidableEq (Except GemErr (List Char)) := fun a b =>
  match a, b with
  | .error x, .error y =>
    if h : x = y then .isTrue (by rw [h]) else .isFalse (by intro hh; cases hh; exact h rfl)
  | .error _, .ok _ => .isFalse (by intro h; cases h)
  | .ok _, .error _ => .isFalse (by intro h; cases h)
  | .ok x, .ok y =>
    if h : x = y then .isTrue (by rw [h]) else .isFalse (by intro hh; cases hh; exact h rfl)

/-- Result of one client operation: the value or error, plus whether the
upstream service was called at all. -/
structure CallResult where
  result : Except GemErr (List Char)
  called : Bool
deriving DecidableEq

/-- `containsSub sub l` is true iff `sub` occurs as a contiguous substring
of `l` (JS `String.prototype.includes`). -/
def containsSub (sub : List Char) : List Char → Bool
  | [] => sub.isEmpty
  | c :: cs => startsWithL sub (c :: cs) || containsSub sub cs

/-- The credential-invalid detection of every catch block. -/
def containsKeyInvalid (m : List Char) : Bool :=
  containsSub ("API key not valid".toList) m
    || containsSub ("API_KEY_INVALID".toList) m
    || containsSub ("API key is invalid".toList) m

/-- Message of the error thrown when the OCR response is not a string,
as re-wrapped by the catch block. -/
def ocrFormatMsg : List Char := "OCR failed: Unexpected response format from AI.".toList

/-- Same for the Markdown conversion. -/
def mdFormatMsg : List Char :=
  "Markdown conversion failed: Unexpected response format from AI.".toList

/-- Same for the translation. -/
def trFormatMsg : List Char := "Translation failed: Unexpected response format from AI.".toList

/-- `extractTextFromImageData(base64ImageData, mimeType)`: credential check,
then the OCR call; a string response is returned trimmed; a non-string
response and upstream failures are mapped by the catch block, with the
credential-invalid phrases special-cased. -/
def extractTextFromImageData (env : Option (List Char)) (base64ImageData mimeType : List Char)
    (svc : SvcOutcome) : CallResult :=
  if keyConfigured env = false then ⟨.error .config, false⟩
  else
    match svc with
    | .ok t => ⟨.ok (trim t), true⟩
    | .nonText => ⟨.error (.ocrService ocrFormatMsg), true⟩
    | .err m =>
      ⟨.error (if containsKeyInvalid m then .invalidKey else .ocrService m), true⟩

/-- `convertTextToMarkdown(rawText)`: credential check, then the
empty-input short-circuit, then the formatting call, whose string response
is cleaned by `stripFence`. -/
def convertTextToMarkdown (env : Option (List Char)) (rawText : List Char)
    (svc : SvcOutcome) : CallResult :=
  if keyConfigured env = false then ⟨.error .config, false⟩
  else if (trim rawText).isEmpty then ⟨.ok [], false⟩
  else
    match svc with
    | .ok t => ⟨.ok (stripFence t), true⟩
    | .nonText => ⟨.error (.mdService mdFormatMsg), true⟩
    | .err m =>
      ⟨.error (if containsKeyInvalid m then .invalidKey else .mdService m), true⟩

/-- `translateText(text, targetLanguageCode, systemInstructionText)`:
credential check, then the translation call, whose string response is
cleaned by `stripFence`.  No empty-input short-circuit exists here. -/
def translateText (env : Option (List Char)) (text targetLanguageCode systemInstructionText : List Char)
    (svc : SvcOutcome) : CallResult :=
  if keyConfigured env = false then ⟨.error .config, false⟩
  else
    match svc with
    | .ok t => ⟨.ok (stripFence t), true⟩
    | .nonText => ⟨.error (.translateService trFormatMsg), true⟩
    | .err m =>
      ⟨.error (if containsKeyInvalid m then .invalidKey else .translateService m), true⟩

/-- C7: for every input that is empty or whitespace-only,
`convertTextToMarkdown` returns the empty string without issuing a service
call — whenever the operation can be called at all, i.e. whenever the
credential is configured; and, like the other two operations, it fails fast
with the configuration error (again without any service call) when the
credential is absent or blank. -/
theorem c7_reformat_short_circuit (env : Option (List Char))
    (raw b64 mime txt tgt sysi : List Char) (svc svc2 svc3 : SvcOutcome) :
    (keyConfigured env = true → (trim raw).isEmpty = true →
      convertTextToMarkdown env raw svc = ⟨.ok [], false⟩)
    ∧ (keyConfigured env = false →
      convertTextToMarkdown env raw svc = ⟨.error .config, false⟩
      ∧ extractTextFromImageData env b64 mime svc2 = ⟨.error .config, false⟩
      ∧ translateText env txt tgt sysi svc3 = ⟨.error .config, false⟩) := by
  constructor
  · intro hkey hraw
    unfold convertTextToMarkdown
    rw [hkey]
    simp [hraw]
  · intro hkey
    unfold convertTextToMarkdown extractTextFromImageData translateText
    rw [hkey]
    simp

/-- C7 witness: a configured key with a whitespace-only input, and a blank
key with arbitrary input. -/
theorem c7_witness :
    convertTextToMarkdown (some ("key".toList)) ("  \n ".toList) .nonText = ⟨.ok [], false⟩
    ∧ convertTextToMarkdown (some ("  ".toList)) ("hi".toList) .nonText = ⟨.error .config, false⟩ :=
  ⟨(c7_reformat_short_circuit (some ("key".toList)) ("  \n ".toList) [] [] [] [] []
      .nonText .nonText .nonText).1 (by decide) (by decide),
   ((c7_reformat_short_circuit (some ("  ".toList)) ("hi".toList) [] [] [] [] []
      .nonText .nonText .nonText).2 (by decide)).1⟩

/-! ## Voice resolution (hooks/useTTS.ts, `speak`)

The hook picks a voice in three stages, each preferring a voice flagged as
the platform default (`find(v => v.default) || matches[0]`):

1. voices with `voice.lang === languageCode`;
2. voices with `voice.lang.startsWith(baseLanguage)` where
   `baseLanguage = languageCode.split('-')[0]`;
3. any available voice.

If no voice is available at all the requested language code is set on the
utterance directly. -/

/-- A platform speech-synthesis voice (`SpeechSynthesisVoice`): its BCP-47
tag, its platform-default flag and its display name. -/
structure Voice where
  lang : List Char
  isDefault : Bool
  name : List Char
deriving DecidableEq

/-- `matches.find(v => v.default) || matches[0]` applied to a candidate
list: the first default-flagged voice if any, else the first voice, else
nothing. -/
def pickPreferDefault (vs : List Voice) : Option Voice :=
  match vs with
  | [] => none
  | v :: _ => some ((vs.find? (fun u => u.isDefault)).getD v)

/-- `languageCode.split('-')[0]`: the primary subtag. -/
def baseLang (code : List Char) : List Char :=
  code.takeWhile (fun c => !(c == '-'))

/-- The voice-selection logic of `speak`. -/
def selectVoice (voices : List Voice) (languageCode : List Char) : Option Voice :=
  match pickPreferDefault (voices.filter (fun v => v.lang == languageCode)) with
  | some v => some v
  | none =>
    match pickPreferDefault
        (voices.filter (fun v => startsWithL (baseLang languageCode) v.lang)) with
    | some v => some v
    | none => pickPreferDefault voices

/-- Modelled from the spec's words for comparison (refinement check): the
same resolution order but with stage 2 matching "on the primary subtag
only", i.e. voices whose primary subtag equals the requested primary
subtag, rather than the code's string-prefix test. -/
def selectVoiceSubtagSpec (voices : List Voice) (languageCode : List Char) : Option Voice :=
  match pickPreferDefault (voices.filter (fun v => v.lang == languageCode)) with
  | some v => some v
  | none =>
    match pickPreferDefault
        (voices.filter (fun v => baseLang v.lang == baseLang languageCode)) with
    | some v => some v
    | none => pickPreferDefault voices

/-- The Konkani voice: its tag begins with the letters "ko" but its primary
subtag is "kok", not "ko". -/
def kokVoice : Voice := ⟨"kok-IN".toList, false, "Konkani".toList⟩

/-- A default-flagged Japanese voice. -/
def jaVoice : Voice := ⟨"ja-JP".toList, true, "Japanese".toList⟩

/-- C8 counterexample: resolution does not follow the claimed
primary-subtag stage.  For target tag "ko-KR" with voices
`[kok-IN (non-default), ja-JP (default)]` the code's stage 2 is a string
prefix test, so it picks the non-default `kok-IN` voice (whose primary
subtag is "kok", not "ko"), while the claimed order (exact, then primary
subtag, then any preferring default) would pick the default `ja-JP`
voice. -/
theorem c8_counterexample :
    selectVoice [kokVoice, jaVoice] ("ko-KR".toList) = some kokVoice
    ∧ selectVoiceSubtagSpec [kokVoice, jaVoice] ("ko-KR".toList) = some jaVoice
    ∧ selectVoice [kokVoice, jaVoice] ("ko-KR".toList)
        ≠ selectVoiceSubtagSpec [kokVoice, jaVoice] ("ko-KR".toList) := by
  refine ⟨by decide, by decide, by decide⟩

theorem startsWithL_takeWhile (p : Char → Bool) (l : List Char) :
    startsWithL (l.takeWhile p) l = true := by
  induction l with
  | nil => rfl
  | cons c cs ih =>
    rw [List.takeWhile_cons]
    by_cases h : p c
    · simp [h, startsWithL, ih]
    · simp [h, startsWithL]

theorem pickPreferDefault_spec (vs : List Voice) (hne : vs ≠ []) :
    ∃ u, pickPreferDefault vs = some u ∧ u ∈ vs ∧
      ((∃ v ∈ vs, v.isDefault = true) → u.isDefault = true) := by
  cases vs with
  | nil => exact absurd rfl hne
  | cons v rest =>
    unfold pickPreferDefault
    cases hf : (v :: rest).find? (fun u => u.isDefault) with
    | none =>
      refine ⟨v, by simp [hf], List.mem_cons_self .., ?_⟩
      rintro ⟨w, hw, hd⟩
      rw [List.find?_eq_none] at hf
      exact absurd hd (by simpa using hf w hw)
    | some w =>
      refine ⟨w, by simp [hf], List.mem_of_find?_eq_some hf, fun _ => ?_⟩
      have := List.find?_some hf
      simpa using this

/-- C8 (amended): voice resolution picks, in order: an exact language-tag
match (preferring a default-flagged voice); else a voice whose tag string
begins with the primary subtag of the requested tag — a prefix match on the
whole tag, not a match of primary subtags (preferring default); else any
available voice (preferring default); and with no voices enumerable at all
it selects nothing, so the requested tag is set on the utterance directly.
In particular, for "ko-KR" with only a non-default "ko-KR" voice and a
default "en-US" voice available, the exact "ko-KR" match is chosen. -/
theorem c8_voice_resolution :
    (∀ (voices : List Voice) (code : List Char),
      (∃ v ∈ voices, v.lang = code) →
        ∃ u, selectVoice voices code = some u ∧ u ∈ voices ∧ u.lang = code ∧
          ((∃ v ∈ voices, v.lang = code ∧ v.isDefault = true) → u.isDefault = true))
    ∧ (∀ (voices : List Voice) (code : List Char),
      (∀ v ∈ voices, v.lang ≠ code) →
      (∃ v ∈ voices, startsWithL (baseLang code) v.lang = true) →
        ∃ u, selectVoice voices code = some u ∧ u ∈ voices ∧
          startsWithL (baseLang code) u.lang = true ∧
          ((∃ v ∈ voices, startsWithL (baseLang code) v.lang = true ∧ v.isDefault = true) →
            u.isDefault = true))
    ∧ (∀ (voices : List Voice) (code : List Char),
      (∀ v ∈ voices, startsWithL (baseLang code) v.lang = false) → voices ≠ [] →
        ∃ u, selectVoice voices code = some u ∧ u ∈ voices ∧
          ((∃ v ∈ voices, v.isDefault = true) → u.isDefault = true))
    ∧ (∀ code : List Char, selectVoice [] code = none)
    ∧ selectVoice [⟨"ko-KR".toList, false, "Korean".toList⟩,
        ⟨"en-US".toList, true, "English (US)".toList⟩] ("ko-KR".toList)
        = some ⟨"ko-KR".toList, false, "Korean".toList⟩ := by
  refine ⟨?_, ?_, ?_, ?_, by decide⟩
  · rintro voices code ⟨w, hw, hwl⟩
    have hne : voices.filter (fun v => v.lang == code) ≠ [] := by
      intro hnil
      rw [List.filter_eq_nil_iff] at hnil
      exact hnil w hw (by simp [hwl])
    obtain ⟨u, hpick, humem, hdef⟩ :=
      pickPreferDefault_spec (voices.filter (fun v => v.lang == code)) hne
    rw [List.mem_filter] at humem
    refine ⟨u, ?_, humem.1, by simpa using humem.2, ?_⟩
    · unfold selectVoice
      rw [hpick]
    · rintro ⟨v, hv, hvl, hvd⟩
      exact hdef ⟨v, List.mem_filter.mpr ⟨hv, by simp [hvl]⟩, hvd⟩
  · rintro voices code hno ⟨w, hw, hwl⟩
    have h1 : voices.filter (fun v => v.lang == code) = [] := by
      rw [List.filter_eq_nil_iff]
      intro a ha hbeq
      exact hno a ha (by simpa using hbeq)
    have hne : voices.filter (fun v => startsWithL (baseLang code) v.lang) ≠ [] := by
      intro hnil
      rw [List.filter_eq_nil_iff] at hnil
      exact hnil w hw (by simp [hwl])
    obtain ⟨u, hpick, humem, hdef⟩ :=
      pickPreferDefault_spec (voices.filter (fun v => startsWithL (baseLang code) v.lang)) hne
    rw [List.mem_filter] at humem
    refine ⟨u, ?_, humem.1, humem.2, ?_⟩
    · unfold selectVoice
      rw [h1]
      rw [show pickPreferDefault ([] : List Voice) = none from rfl, hpick]
    · rintro ⟨v, hv, hvl, hvd⟩
      exact hdef ⟨v, List.mem_filter.mpr ⟨hv, hvl⟩, hvd⟩
  · rintro voices code hpref hne
    have h1 : voices.filter (fun v => v.lang == code) = [] := by
      rw [List.filter_eq_nil_iff]
      intro a ha hbeq
      have hal : a.lang = code := by simpa using hbeq
      have := hpref a ha
      rw [hal] at this
      unfold baseLang at this
      rw [startsWithL_takeWhile] at this
      cases this
    have h2 : voices.filter (fun v => startsWithL (baseLang code) v.lang) = [] := by
      rw [List.filter_eq_nil_iff]
      intro a ha hbeq
      rw [hpref a ha] at hbeq
      cases hbeq
    obtain ⟨u, hpick, humem, hdef⟩ := pickPreferDefault_spec voices hne
    refine ⟨u, ?_, humem, hdef⟩
    unfold selectVoice
    rw [h1, h2]
    rw [show pickPreferDefault ([] : List Voice) = none from rfl]
    exact hpick
  · intro code
    rfl

/-- A non-default Korean voice, used as a concrete instance. -/
def koVoiceEx : Voice := ⟨"ko-KR".toList, false, "Korean".toList⟩

/-- A default Vietnamese voice, used as a concrete instance. -/
def viVoiceEx : Voice := ⟨"vi-VN".toList, true, "Vietnamese".toList⟩

/-- C8 witness: the amended statement's exact-match stage evaluated on a
concrete voice list. -/
theorem c8_witness :
    ∃ u : Voice, selectVoice [koVoiceEx, viVoiceEx] ("ko-KR".toList) = some u
      ∧ u ∈ [koVoiceEx, viVoiceEx]
      ∧ u.lang = "ko-KR".toList
      ∧ ((∃ v ∈ [koVoiceEx, viVoiceEx],
          v.lang = "ko-KR".toList ∧ v.isDefault = true) → u.isDefault = true) :=
  c8_voice_resolution.1 [koVoiceEx, viVoiceEx] ("ko-KR".toList)
    ⟨koVoiceEx, by decide, by decide⟩

/-! ## The orchestrator (App.tsx)

The App component's state: the two text buffers, the three error slots
(general/translation, file-processing, speech), the stage flags and the TTS
hook's state.  The speech error slot is held in `currentTtsError`
(rendered as the "TTS Info" alert); the hook-internal `ttsError` only feeds
it through an effect and is irrelevant to the claims below. -/

/-- A selectable target language (`types.ts`). -/
structure TargetLanguage where
  code : List Char
  name : List Char
deriving DecidableEq

/-- Typed rendering of the messages put into the error slots by
`handleFileUpload` (each constructor carries the data interpolated into the
corresponding message string). -/
inductive UiMsg where
  /-- "Unsupported file type: NAME (TYPE). Please upload a PDF, JPG, PNG, or WEBP file." -/
  | unsupportedType (name mime : List Char)
  /-- "No text content could be extracted from the PDF (OCR)." -/
  | noContentPdf
  /-- "No text content could be extracted from the image (OCR)." -/
  | noContentImage
  /-- "Markdown Conversion Error (PDF): ... Raw text loaded." -/
  | mdConvPdf (e : GemErr)
  /-- "Markdown Conversion Error (Image): ... Raw text loaded." -/
  | mdConvImage (e : GemErr)
  /-- "Image OCR Error: ..." -/
  | imageOcr (e : GemErr)
  /-- "PDF Processing/OCR Error: ..." -/
  | pdfProcessing
  /-- "Image Processing Error: ..." -/
  | imageProcessing
deriving DecidableEq

/-- The component state of `App`. -/
structure AppState where
  inputText : List Char
  translatedText : List Char
  /-- general/translation error slot (`error`) -/
  error : Option UiMsg
  /-- file-processing error slot (`fileProcessingError`) -/
  fileProcessingError : Option UiMsg
  /-- speech error slot (`currentTtsError`) -/
  currentTtsError : Option (List Char)
  isLoading : Bool
  isExtractingText : Bool
  isFormattingToMarkdown : Bool
  targetLanguage : TargetLanguage
  /-- `isSupported` of the TTS hook -/
  ttsSupported : Bool
  isSpeaking : Bool
  isSynthesizing : Bool
deriving DecidableEq

/-- `showOverallSpinner = isExtractingText || isFormattingToMarkdown`. -/
def showOverallSpinner (s : AppState) : Bool :=
  s.isExtractingText || s.isFormattingToMarkdown

/-- The `disabled` expression of the translate button. -/
def translateDisabled (s : AppState) : Bool :=
  s.isLoading || showOverallSpinner s || (trim s.inputText).isEmpty
    || (s.ttsSupported && (s.isSynthesizing || s.isSpeaking))

/-- The `disabled` expression of the speak button. -/
def speakDisabled (s : AppState) : Bool :=
  !s.ttsSupported || s.isLoading || showOverallSpinner s || (trim s.translatedText).isEmpty

/-- The opening lines of `handleFileUpload` (run before the type
dispatch): raise the extraction flag, lower the formatting flag, clear the
general and file-processing error slots and both text buffers, and cancel
any in-flight speech (`cancel()` lowers the speaking/synthesizing flags
when TTS is supported; it does not touch any error slot). -/
def fileSelectPrologue (s : AppState) : AppState :=
  { s with
    isExtractingText := true
    isFormattingToMarkdown := false
    fileProcessingError := none
    error := none
    inputText := []
    translatedText := []
    isSpeaking := if s.ttsSupported then false else s.isSpeaking
    isSynthesizing := if s.ttsSupported then false else s.isSynthesizing }

/-- An uploaded file: its name and declared MIME type. -/
structure UploadFile where
  name : List Char
  mime : List Char
deriving DecidableEq

/-- `'application/pdf'`. -/
def appPdfMime : List Char := "application/pdf".toList

/-- `'image/jpeg'`. -/
def jpegMime : List Char := "image/jpeg".toList

/-- `const validImageTypes = ['image/jpeg', 'image/png', 'image/webp', 'image/jpg']`. -/
def validImageTypes : List (List Char) :=
  ["image/jpeg".toList, "image/png".toList, "image/webp".toList, "image/jpg".toList]

/-- JS `toLowerCase` on the ASCII MIME strings. -/
def lowerL (l : List Char) : List Char := l.map Char.toLower

/-- Outcome of the type dispatch of `handleFileUpload`. -/
inductive FileKind where
  | pdf
  | image
  | unsupported
deriving DecidableEq

/-- The dispatch chain: `file.type === 'application/pdf'` (an exact,
case-sensitive comparison), else
`validImageTypes.includes(file.type.toLowerCase())`, else unsupported. -/
def classifyFile (f : UploadFile) : FileKind :=
  if f.mime = appPdfMime then .pdf
  else if validImageTypes.contains (lowerL f.mime) then .image
  else .unsupported

/-- A network call issued during ingestion. -/
inductive SvcCall where
  | ocr (mime : List Char)
  | reformat
  | translate
deriving DecidableEq

/-- One PDF page as seen by the loop body: `none` models a page whose
rendered data URL yielded no base64 payload (the `if (base64ImageData)`
guard), `some svc` a page for which the OCR call runs with upstream
outcome `svc`. -/
abbrev PageInput : Type := Option SvcOutcome

/-- The text contribution of one page of the PDF loop: the trimmed OCR
text plus a blank-line separator, or nothing when the page has no payload
or its OCR call failed (the per-page catch swallows the error and the
loop continues). -/
def pageContribution (env : Option (List Char)) : PageInput → List Char
  | none => []
  | some svc =>
    match (extractTextFromImageData env [] jpegMime svc).result with
    | .ok t => t ++ "\n\n".toList
    | .error _ => []

/-- The OCR calls issued for one page (none when the credential check
throws before the request is sent, or when the page has no payload). -/
def pageCallsOf (env : Option (List Char)) : PageInput → List SvcCall
  | none => []
  | some svc =>
    if (extractTextFromImageData env [] jpegMime svc).called then [SvcCall.ocr jpegMime] else []

/-- `fullRawText` after the page loop.  (The single source loop accumulates
the text and performs the calls in one pass over the pages, in order; it is
split here into its two accumulators.) -/
def pdfRawText (env : Option (List Char)) (pages : List PageInput) : List Char :=
  (pages.map (pageContribution env)).flatten

/-- The calls issued by the page loop, in order. -/
def pdfCalls (env : Option (List Char)) (pages : List PageInput) : List SvcCall :=
  (pages.map (pageCallsOf env)).flatten

/-- The PDF arm of `handleFileUpload`, applied to the post-prologue state.
`pdfLoadOk = false` models a throw while opening/rendering the document
(the outer catch).  Otherwise: run the page loop, trim the accumulated
text; if non-empty show it, then reformat it — keeping the raw text and
recording a warning if the reformat call fails; if empty record the
no-content error.  The `finally` blocks reset the stage flags. -/
def pdfBranch (s1 : AppState) (env : Option (List Char)) (pdfLoadOk : Bool)
    (pages : List PageInput) (mdSvc : SvcOutcome) : AppState × List SvcCall :=
  if pdfLoadOk = false then
    ({ s1 with fileProcessingError := some .pdfProcessing,
               isExtractingText := false, isFormattingToMarkdown := false }, [])
  else
    let rawPdfText := trim (pdfRawText env pages)
    let calls := pdfCalls env pages
    if !rawPdfText.isEmpty then
      let mdr := convertTextToMarkdown env rawPdfText mdSvc
      let calls' := calls ++ (if mdr.called then [SvcCall.reformat] else [])
      match mdr.result with
      | .ok md =>
        ({ s1 with inputText := md,
                   isExtractingText := false, isFormattingToMarkdown := false }, calls')
      | .error e =>
        ({ s1 with inputText := rawPdfText, fileProcessingError := some (.mdConvPdf e),
                   isExtractingText := false, isFormattingToMarkdown := false }, calls')
    else
      ({ s1 with fileProcessingError := some .noContentPdf,
                 isExtractingText := false }, calls)

/-- The image arm of `handleFileUpload`, applied to the post-prologue
state.  `readOk = false` models a `FileReader` failure (outer catch).  The
file's declared MIME type is forwarded to the OCR call verbatim.  An OCR
failure is terminal for the ingestion; an empty OCR result records the
no-content error; a reformat failure keeps the raw text and records a
warning. -/
def imageBranch (s1 : AppState) (file : UploadFile) (env : Option (List Char))
    (readOk : Bool) (ocrSvc mdSvc : SvcOutcome) : AppState × List SvcCall :=
  if readOk = false then
    ({ s1 with fileProcessingError := some .imageProcessing,
               isExtractingText := false, isFormattingToMarkdown := false }, [])
  else
    let r := extractTextFromImageData env [] file.mime ocrSvc
    let calls := if r.called then [SvcCall.ocr file.mime] else []
    match r.result with
    | .error e =>
      ({ s1 with fileProcessingError := some (.imageOcr e),
                 isExtractingText := false }, calls)
    | .ok rawText =>
      if !(trim rawText).isEmpty then
        let mdr := convertTextToMarkdown env rawText mdSvc
        let calls' := calls ++ (if mdr.called then [SvcCall.reformat] else [])
        match mdr.result with
        | .ok md =>
          ({ s1 with inputText := md,
                     isExtractingText := false, isFormattingToMarkdown := false }, calls')
        | .error e =>
          ({ s1 with inputText := rawText, fileProcessingError := some (.mdConvImage e),
                     isExtractingText := false, isFormattingToMarkdown := false }, calls')
      else
        ({ s1 with inputText := rawText, fileProcessingError := some .noContentImage,
                   isExtractingText := false }, calls)

/-- `handleFileUpload`: the prologue, then the type dispatch; the
unsupported arm records the descriptive error (naming the file and its
declared type) and issues no call. -/
def handleFileUpload (s : AppState) (file : UploadFile) (env : Option (List Char))
    (pdfLoadOk : Bool) (pages : List PageInput) (readOk : Bool)
    (ocrSvc mdSvc : SvcOutcome) : AppState × List SvcCall :=
  let s1 := fileSelectPrologue s
  match classifyFile file with
  | .pdf => pdfBranch s1 env pdfLoadOk pages mdSvc
  | .image => imageBranch s1 file env readOk ocrSvc mdSvc
  | .unsupported =>
    ({ s1 with fileProcessingError := some (.unsupportedType file.name file.mime),
               isExtractingText := false }, [])

/-- A request handed to the speech controller. -/
structure SpeakCmd where
  text : List Char
  lang : List Char
deriving DecidableEq

/-- "Text-to-Speech is not supported by this browser." -/
def ttsNotSupportedMsg : List Char :=
  "Text-to-Speech is not supported by this browser.".toList

/-- "No text content available to speak." -/
def noSpeakContentMsg : List Char := "No text content available to speak.".toList

/-- `handleSpeakOrStop`: `parse` is `marked.parse`, `sanitize` is
`DOMPurify.sanitize`, `extractContent` reads `textContent` off the
document fragment built from the sanitized markup.  When a speak request
is issued it carries the trimmed extracted text and the selected target
language code; when already speaking/synthesizing the handler cancels
instead. -/
def handleSpeakOrStop (parse sanitize extractContent : List Char → List Char)
    (s : AppState) : AppState × Option SpeakCmd :=
  if !s.ttsSupported then
    ({ s with currentTtsError := some ttsNotSupportedMsg }, none)
  else
    let s1 := { s with currentTtsError := none }
    if s.isSpeaking || s.isSynthesizing then
      ({ s1 with isSpeaking := false, isSynthesizing := false }, none)
    else if !s.translatedText.isEmpty then
      let textToSpeak := extractContent (sanitize (parse s.translatedText))
      if !(trim textToSpeak).isEmpty then
        (s1, some ⟨trim textToSpeak, s.targetLanguage.code⟩)
      else
        ({ s1 with currentTtsError := some noSpeakContentMsg }, none)
    else
      (s1, none)

/-- The HTML bound to the input pane:
`DOMPurify.sanitize(marked.parse(inputText))`. -/
def renderedInputHtml (parse sanitize : List Char → List Char) (s : AppState) : List Char :=
  sanitize (parse s.inputText)

/-- The HTML bound to the output pane:
`DOMPurify.sanitize(marked.parse(translatedText))`. -/
def renderedTranslatedHtml (parse sanitize : List Char → List Char) (s : AppState) : List Char :=
  sanitize (parse s.translatedText)

theorem isEmpty_false_of_ne_nil {α : Type} {l : List α} (h : l ≠ []) : l.isEmpty = false := by
  cases l with
  | nil => exact absurd rfl h
  | cons a as => rfl

/-- A fixed selected language for concrete instances. -/
def demoLang : TargetLanguage := ⟨"en-US".toList, "English (US)".toList⟩

/-- A concrete pre-upload state in which every error slot is populated and
speech is playing. -/
def demoState : AppState :=
  { inputText := "old input".toList
    translatedText := "old output".toList
    error := some .pdfProcessing
    fileProcessingError := some .imageProcessing
    currentTtsError := some ("Speech error: network".toList)
    isLoading := false
    isExtractingText := false
    isFormattingToMarkdown := false
    targetLanguage := demoLang
    ttsSupported := true
    isSpeaking := true
    isSynthesizing := false }

/-- C2 counterexample: the file-selection prologue does not clear the
speech error slot.  Starting from a state whose `currentTtsError` holds a
message, the slot still holds it after the prologue, so the claim that all
three error slots are cleared is false. -/
theorem c2_counterexample :
    (fileSelectPrologue demoState).currentTtsError ≠ none := by
  decide

/-- C2 (amended): on every file-selection event, before ingestion starts,
the orchestrator clears both text buffers and two of the three error slots
— the general/translation slot and the file-processing slot; the speech
error slot is left unchanged — and disables the translate and speak
controls while ingestion runs. -/
theorem c2_file_select_prologue (s : AppState) :
    (fileSelectPrologue s).inputText = []
    ∧ (fileSelectPrologue s).translatedText = []
    ∧ (fileSelectPrologue s).error = none
    ∧ (fileSelectPrologue s).fileProcessingError = none
    ∧ (fileSelectPrologue s).currentTtsError = s.currentTtsError
    ∧ (fileSelectPrologue s).isExtractingText = true
    ∧ translateDisabled (fileSelectPrologue s) = true
    ∧ speakDisabled (fileSelectPrologue s) = true := by
  refine ⟨rfl, rfl, rfl, rfl, rfl, rfl, ?_, ?_⟩
  · simp [translateDisabled, showOverallSpinner, fileSelectPrologue]
  · simp [speakDisabled, showOverallSpinner, fileSelectPrologue]

/-- A PDF file for concrete instances. -/
def demoPdfFile : UploadFile := ⟨"doc.pdf".toList, appPdfMime⟩

theorem handleFileUpload_pdf (s : AppState) (f : UploadFile) (env : Option (List Char))
    (pdfLoadOk : Bool) (pages : List PageInput) (readOk : Bool) (ocrSvc mdSvc : SvcOutcome)
    (h : classifyFile f = FileKind.pdf) :
    handleFileUpload s f env pdfLoadOk pages readOk ocrSvc mdSvc
      = pdfBranch (fileSelectPrologue s) env pdfLoadOk pages mdSvc := by
  unfold handleFileUpload
  rw [h]

theorem handleFileUpload_image (s : AppState) (f : UploadFile) (env : Option (List Char))
    (pdfLoadOk : Bool) (pages : List PageInput) (readOk : Bool) (ocrSvc mdSvc : SvcOutcome)
    (h : classifyFile f = FileKind.image) :
    handleFileUpload s f env pdfLoadOk pages readOk ocrSvc mdSvc
      = imageBranch (fileSelectPrologue s) f env readOk ocrSvc mdSvc := by
  unfold handleFileUpload
  rw [h]

theorem handleFileUpload_unsupported (s : AppState) (f : UploadFile) (env : Option (List Char))
    (pdfLoadOk : Bool) (pages : List PageInput) (readOk : Bool) (ocrSvc mdSvc : SvcOutcome)
    (h : classifyFile f = FileKind.unsupported) :
    handleFileUpload s f env pdfLoadOk pages readOk ocrSvc mdSvc
      = ({ fileSelectPrologue s with
            fileProcessingError := some (.unsupportedType f.name f.mime)
            isExtractingText := false }, []) := by
  unfold handleFileUpload
  rw [h]

theorem pdfBranch_noContent (s1 : AppState) (env : Option (List Char))
    (pages : List PageInput) (mdSvc : SvcOutcome)
    (h : trim (pdfRawText env pages) = []) :
    pdfBranch s1 env true pages mdSvc
      = ({ s1 with fileProcessingError := some .noContentPdf, isExtractingText := false },
         pdfCalls env pages) := by
  unfold pdfBranch
  simp [h]

theorem pdfBranch_mdOk (s1 : AppState) (env : Option (List Char))
    (pages : List PageInput) (mdSvc : SvcOutcome) (md : List Char) (called : Bool)
    (h : trim (pdfRawText env pages) ≠ [])
    (hmd : convertTextToMarkdown env (trim (pdfRawText env pages)) mdSvc
      = ⟨.ok md, called⟩) :
    pdfBranch s1 env true pages mdSvc
      = ({ s1 with inputText := md, isExtractingText := false, isFormattingToMarkdown := false },
         pdfCalls env pages ++ (if called then [SvcCall.reformat] else [])) := by
  unfold pdfBranch
  simp [isEmpty_false_of_ne_nil h, hmd]

theorem pdfBranch_mdErr (s1 : AppState) (env : Option (List Char))
    (pages : List PageInput) (mdSvc : SvcOutcome) (e : GemErr) (called : Bool)
    (h : trim (pdfRawText env pages) ≠ [])
    (hmd : convertTextToMarkdown env (trim (pdfRawText env pages)) mdSvc
      = ⟨.error e, called⟩) :
    pdfBranch s1 env true pages mdSvc
      = ({ s1 with
            inputText := trim (pdfRawText env pages)
            fileProcessingError := some (.mdConvPdf e)
            isExtractingText := false
            isFormattingToMarkdown := false },
         pdfCalls env pages ++ (if called then [SvcCall.reformat] else [])) := by
  unfold pdfBranch
  simp [isEmpty_false_of_ne_nil h, hmd]

theorem imageBranch_ocrOk_mdOk (s1 : AppState) (f : UploadFile) (env : Option (List Char))
    (ocrSvc mdSvc : SvcOutcome) (rawText md : List Char) (c1 c2 : Bool)
    (hr : extractTextFromImageData env [] f.mime ocrSvc = ⟨.ok rawText, c1⟩)
    (hraw : trim rawText ≠ [])
    (hmd : convertTextToMarkdown env rawText mdSvc = ⟨.ok md, c2⟩) :
    imageBranch s1 f env true ocrSvc mdSvc
      = ({ s1 with inputText := md, isExtractingText := false, isFormattingToMarkdown := false },
         (if c1 then [SvcCall.ocr f.mime] else []) ++ (if c2 then [SvcCall.reformat] else [])) := by
  unfold imageBranch
  simp [hr, isEmpty_false_of_ne_nil hraw, hmd]

theorem imageBranch_ocrOk_mdErr (s1 : AppState) (f : UploadFile) (env : Option (List Char))
    (ocrSvc mdSvc : SvcOutcome) (rawText : List Char) (e : GemErr) (c1 c2 : Bool)
    (hr : extractTextFromImageData env [] f.mime ocrSvc = ⟨.ok rawText, c1⟩)
    (hraw : trim rawText ≠ [])
    (hmd : convertTextToMarkdown env rawText mdSvc = ⟨.error e, c2⟩) :
    imageBranch s1 f env true ocrSvc mdSvc
      = ({ s1 with
            inputText := rawText
            fileProcessingError := some (.mdConvImage e)
            isExtractingText := false
            isFormattingToMarkdown := false },
         (if c1 then [SvcCall.ocr f.mime] else []) ++ (if c2 then [SvcCall.reformat] else [])) := by
  unfold imageBranch
  simp [hr, isEmpty_false_of_ne_nil hraw, hmd]

/-- C3: a failing OCR call for one PDF page contributes nothing and the
loop continues with the remaining pages (first conjunct, for a failing
page in any position); for a three-page PDF whose second page fails OCR
the accumulated raw text is the concatenation of the extracted texts of
pages 1 and 3, each followed by a blank-line separator (second conjunct);
and such an ingestion completes without a fatal error — no
file-processing error is recorded, the buffer is filled from the reformat
result and the extraction flag is lowered (third conjunct). -/
theorem c3_pdf_page_failure (env : Option (List Char)) (t1 t3 emsg mdText : List Char)
    (s : AppState) (f : UploadFile)
    (hkey : keyConfigured env = true) (h1 : trim t1 ≠ []) (hf : f.mime = appPdfMime) :
    (∀ (pre post : List PageInput) (m : List Char),
      pdfRawText env (pre ++ some (SvcOutcome.err m) :: post) = pdfRawText env (pre ++ post))
    ∧ pdfRawText env [some (.ok t1), some (.err emsg), some (.ok t3)]
        = (trim t1 ++ "\n\n".toList) ++ (trim t3 ++ "\n\n".toList)
    ∧ ((handleFileUpload s f env true [some (.ok t1), some (.err emsg), some (.ok t3)] true
          (SvcOutcome.ok []) (SvcOutcome.ok mdText)).fst.fileProcessingError = none
      ∧ (handleFileUpload s f env true [some (.ok t1), some (.err emsg), some (.ok t3)] true
          (SvcOutcome.ok []) (SvcOutcome.ok mdText)).fst.inputText = stripFence mdText
      ∧ (handleFileUpload s f env true [some (.ok t1), some (.err emsg), some (.ok t3)] true
          (SvcOutcome.ok []) (SvcOutcome.ok mdText)).fst.isExtractingText = false) := by
  have hcontribErr : ∀ m : List Char, pageContribution env (some (.err m)) = [] := by
    intro m
    unfold pageContribution extractTextFromImageData
    rw [hkey]
    simp
  have hcontribOk : ∀ t : List Char,
      pageContribution env (some (.ok t)) = trim t ++ "\n\n".toList := by
    intro t
    unfold pageContribution extractTextFromImageData
    rw [hkey]
    simp
  have hconcrete : pdfRawText env [some (.ok t1), some (.err emsg), some (.ok t3)]
      = (trim t1 ++ "\n\n".toList) ++ (trim t3 ++ "\n\n".toList) := by
    simp [pdfRawText, hcontribOk, hcontribErr]
  refine ⟨?_, hconcrete, ?_⟩
  · intro pre post m
    simp [pdfRawText, hcontribErr m]
  · have hclass : classifyFile f = FileKind.pdf := by simp [classifyFile, hf]
    have hraww : trim (pdfRawText env [some (.ok t1), some (.err emsg), some (.ok t3)]) ≠ [] := by
      rw [hconcrete, List.append_assoc]
      exact trim_append_left_ne_nil (trim t1) _ (by rw [trim_idem]; exact h1)
    have hmdr : convertTextToMarkdown env
        (trim (pdfRawText env [some (.ok t1), some (.err emsg), some (.ok t3)]))
        (SvcOutcome.ok mdText) = ⟨.ok (stripFence mdText), true⟩ := by
      unfold convertTextToMarkdown
      rw [hkey]
      rw [trim_idem, isEmpty_false_of_ne_nil hraww]
      simp
    rw [handleFileUpload_pdf _ _ _ _ _ _ _ _ hclass,
      pdfBranch_mdOk _ _ _ _ _ _ hraww hmdr]
    exact ⟨rfl, rfl, rfl⟩

/-- C3 witness: the statement at a concrete three-page ingestion. -/
theorem c3_witness :
    pdfRawText (some ("k".toList))
        [some (.ok ("page one".toList)), some (.err ("boom".toList)), some (.ok ("page three".toList))]
      = (trim ("page one".toList) ++ "\n\n".toList) ++ (trim ("page three".toList) ++ "\n\n".toList) :=
  (c3_pdf_page_failure (some ("k".toList)) ("page one".toList) ("page three".toList)
    ("boom".toList) ("# md".toList) demoState demoPdfFile
    (by decide) (by decide) rfl).2.1

/-- Every call issued by the PDF page loop is an OCR call. -/
theorem pdfCalls_ocr_only (env : Option (List Char)) (pages : List PageInput) :
    ∀ c ∈ pdfCalls env pages, ∃ m, c = SvcCall.ocr m := by
  intro c hc
  unfold pdfCalls at hc
  rw [List.mem_flatten] at hc
  obtain ⟨l, hl, hcl⟩ := hc
  rw [List.mem_map] at hl
  obtain ⟨pg, hpg, rfl⟩ := hl
  cases pg with
  | none => cases hcl
  | some svc =>
    simp only [pageCallsOf] at hcl
    by_cases h : (extractTextFromImageData env [] jpegMime svc).called = true
    · rw [if_pos h] at hcl
      rw [List.mem_singleton] at hcl
      exact ⟨_, hcl⟩
    · rw [if_neg h] at hcl
      cases hcl

/-- C4: for every PDF ingestion whose accumulated raw OCR text is empty
after trimming, ingestion terminates with the no-content error in the
file-processing slot, and neither the reformat nor the translate operation
is ever called during that attempt. -/
theorem c4_pdf_no_content (s : AppState) (f : UploadFile) (env : Option (List Char))
    (pages : List PageInput) (ocrSvc mdSvc : SvcOutcome)
    (hf : f.mime = appPdfMime) (hempty : trim (pdfRawText env pages) = []) :
    (handleFileUpload s f env true pages true ocrSvc mdSvc).fst.fileProcessingError
        = some UiMsg.noContentPdf
    ∧ (handleFileUpload s f env true pages true ocrSvc mdSvc).fst.inputText = []
    ∧ SvcCall.reformat ∉ (handleFileUpload s f env true pages true ocrSvc mdSvc).snd
    ∧ SvcCall.translate ∉ (handleFileUpload s f env true pages true ocrSvc mdSvc).snd := by
  have hclass : classifyFile f = FileKind.pdf := by simp [classifyFile, hf]
  have hred : handleFileUpload s f env true pages true ocrSvc mdSvc
      = ({ fileSelectPrologue s with
            fileProcessingError := some .noContentPdf
            isExtractingText := false }, pdfCalls env pages) := by
    rw [handleFileUpload_pdf _ _ _ _ _ _ _ _ hclass,
      pdfBranch_noContent _ _ _ _ hempty]
  rw [hred]
  refine ⟨rfl, rfl, ?_, ?_⟩
  · intro hmem
    obtain ⟨m, hm⟩ := pdfCalls_ocr_only env pages _ hmem
    cases hm
  · intro hmem
    obtain ⟨m, hm⟩ := pdfCalls_ocr_only env pages _ hmem
    cases hm

/-- C4 witness: a one-page PDF whose single page fails OCR. -/
theorem c4_witness :
    (handleFileUpload demoState demoPdfFile (some ("k".toList)) true
        [some (.err ("boom".toList))] true (.ok []) (.ok [])).fst.fileProcessingError
      = some UiMsg.noContentPdf :=
  (c4_pdf_no_content demoState demoPdfFile (some ("k".toList))
    [some (.err ("boom".toList))] (.ok []) (.ok []) rfl (by decide)).1

/-- A PNG file for concrete instances. -/
def demoPngFile : UploadFile := ⟨"scan.png".toList, "image/png".toList⟩

/-- C5: for every ingestion — PDF or image — in which OCR succeeded with
non-empty text but the reformat call fails, the input buffer ends equal to
the raw OCR text, the warning lands in the file-processing slot and the
stage flags are lowered (the ingestion does not fail as a whole); and when
OCR and reformat both succeed the buffer equals the reformat result. -/
theorem c5_reformat_fallback (s : AppState) (f g : UploadFile) (env : Option (List Char))
    (pages : List PageInput) (ocrText : List Char) (mdSvc : SvcOutcome)
    (hf : f.mime = appPdfMime) (hg : classifyFile g = FileKind.image)
    (hkey : keyConfigured env = true) :
    (∀ (e : GemErr) (c : Bool), trim (pdfRawText env pages) ≠ [] →
      convertTextToMarkdown env (trim (pdfRawText env pages)) mdSvc = ⟨.error e, c⟩ →
      (handleFileUpload s f env true pages true (SvcOutcome.ok []) mdSvc).fst.inputText
          = trim (pdfRawText env pages)
      ∧ (handleFileUpload s f env true pages true (SvcOutcome.ok []) mdSvc).fst.fileProcessingError
          = some (UiMsg.mdConvPdf e)
      ∧ (handleFileUpload s f env true pages true (SvcOutcome.ok []) mdSvc).fst.isExtractingText
          = false
      ∧ (handleFileUpload s f env true pages true (SvcOutcome.ok []) mdSvc).fst.isFormattingToMarkdown
          = false)
    ∧ (∀ (md : List Char) (c : Bool), trim (pdfRawText env pages) ≠ [] →
      convertTextToMarkdown env (trim (pdfRawText env pages)) mdSvc = ⟨.ok md, c⟩ →
      (handleFileUpload s f env true pages true (SvcOutcome.ok []) mdSvc).fst.inputText = md)
    ∧ (∀ (e : GemErr) (c : Bool), trim ocrText ≠ [] →
      convertTextToMarkdown env (trim ocrText) mdSvc = ⟨.error e, c⟩ →
      (handleFileUpload s g env true pages true (SvcOutcome.ok ocrText) mdSvc).fst.inputText
          = trim ocrText
      ∧ (handleFileUpload s g env true pages true (SvcOutcome.ok ocrText) mdSvc).fst.fileProcessingError
          = some (UiMsg.mdConvImage e)
      ∧ (handleFileUpload s g env true pages true (SvcOutcome.ok ocrText) mdSvc).fst.isExtractingText
          = false
      ∧ (handleFileUpload s g env true pages true (SvcOutcome.ok ocrText) mdSvc).fst.isFormattingToMarkdown
          = false)
    ∧ (∀ (md : List Char) (c : Bool), trim ocrText ≠ [] →
      convertTextToMarkdown env (trim ocrText) mdSvc = ⟨.ok md, c⟩ →
      (handleFileUpload s g env true pages true (SvcOutcome.ok ocrText) mdSvc).fst.inputText = md) := by
  have hclass : classifyFile f = FileKind.pdf := by simp [classifyFile, hf]
  have hx : extractTextFromImageData env [] g.mime (SvcOutcome.ok ocrText)
      = ⟨.ok (trim ocrText), true⟩ := by
    unfold extractTextFromImageData
    rw [hkey]
    simp
  refine ⟨?_, ?_, ?_, ?_⟩
  · intro e c hraw hmd
    rw [handleFileUpload_pdf _ _ _ _ _ _ _ _ hclass,
      pdfBranch_mdErr _ _ _ _ _ _ hraw hmd]
    exact ⟨rfl, rfl, rfl, rfl⟩
  · intro md c hraw hmd
    rw [handleFileUpload_pdf _ _ _ _ _ _ _ _ hclass,
      pdfBranch_mdOk _ _ _ _ _ _ hraw hmd]
  · intro e c hraw hmd
    rw [handleFileUpload_image _ _ _ _ _ _ _ _ hg,
      imageBranch_ocrOk_mdErr _ _ _ _ _ _ _ _ _ hx (by rw [trim_idem]; exact hraw) hmd]
    exact ⟨rfl, rfl, rfl, rfl⟩
  · intro md c hraw hmd
    rw [handleFileUpload_image _ _ _ _ _ _ _ _ hg,
      imageBranch_ocrOk_mdOk _ _ _ _ _ _ _ _ _ hx (by rw [trim_idem]; exact hraw) hmd]

/-- C5 witness: a failing reformat call over a one-page PDF keeps the raw
OCR text in the buffer. -/
theorem c5_witness :
    (handleFileUpload demoState demoPdfFile (some ("k".toList)) true
        [some (.ok ("hello world".toList))] true (.ok []) (.err ("boom".toList))).fst.inputText
      = trim (pdfRawText (some ("k".toList)) [some (.ok ("hello world".toList))]) :=
  ((c5_reformat_fallback demoState demoPdfFile demoPngFile (some ("k".toList))
      [some (.ok ("hello world".toList))] ("x".toList) (.err ("boom".toList))
      rfl (by decide) (by decide)).1
    (.mdService ("boom".toList)) true (by decide) (by decide)).1

/-- C6 counterexample: the dispatch is not case-insensitive for PDFs, and
it accepts a fifth MIME type.  A file declared as `APPLICATION/PDF` is
rejected as unsupported (the PDF comparison is an exact, case-sensitive
string equality), and a file declared as `image/jpg` — absent from the
claim's accepted list — is dispatched to the image arm rather than
rejected. -/
theorem c6_counterexample :
    classifyFile ⟨"doc.pdf".toList, "APPLICATION/PDF".toList⟩ = FileKind.unsupported
    ∧ (handleFileUpload demoState ⟨"doc.pdf".toList, "APPLICATION/PDF".toList⟩
        (some ("k".toList)) true [] true (.ok []) (.ok [])).fst.fileProcessingError
      = some (UiMsg.unsupportedType ("doc.pdf".toList) ("APPLICATION/PDF".toList))
    ∧ classifyFile ⟨"photo.jpg".toList, "image/jpg".toList⟩ = FileKind.image := by
  refine ⟨by decide, by decide, by decide⟩

/-- C6 (amended): the dispatch accepts `application/pdf` by an exact,
case-sensitive comparison; it accepts as images exactly the declared types
whose lower-cased form is one of `image/jpeg`, `image/png`, `image/webp`
or `image/jpg` (so image types match case-insensitively); every other file
is rejected with no network call and with an error naming the file's name
and declared type. -/
theorem c6_dispatch :
    (∀ f : UploadFile, classifyFile f = FileKind.pdf ↔ f.mime = appPdfMime)
    ∧ (∀ f : UploadFile, f.mime ≠ appPdfMime →
        (classifyFile f = FileKind.image ↔ lowerL f.mime ∈ validImageTypes))
    ∧ (∀ (s : AppState) (f : UploadFile) (env : Option (List Char)) (pdfLoadOk : Bool)
        (pages : List PageInput) (readOk : Bool) (ocrSvc mdSvc : SvcOutcome),
        classifyFile f = FileKind.unsupported →
        (handleFileUpload s f env pdfLoadOk pages readOk ocrSvc mdSvc).snd = []
        ∧ (handleFileUpload s f env pdfLoadOk pages readOk ocrSvc mdSvc).fst.fileProcessingError
            = some (UiMsg.unsupportedType f.name f.mime)) := by
  refine ⟨?_, ?_, ?_⟩
  · intro f
    constructor
    · intro h
      by_cases hm : f.mime = appPdfMime
      · exact hm
      · exfalso
        unfold classifyFile at h
        rw [if_neg hm] at h
        by_cases hc : validImageTypes.contains (lowerL f.mime) = true
        · rw [if_pos hc] at h
          cases h
        · rw [if_neg hc] at h
          cases h
    · intro h
      unfold classifyFile
      rw [if_pos h]
  · intro f hm
    unfold classifyFile
    rw [if_neg hm]
    constructor
    · intro h
      by_cases hc : validImageTypes.contains (lowerL f.mime) = true
      · obtain ⟨b, hb, hab⟩ := List.contains_iff_exists_mem_beq.mp hc
        rw [show lowerL f.mime = b from eq_of_beq hab]
        exact hb
      · rw [if_neg hc] at h
        cases h
    · intro h
      have hc : validImageTypes.contains (lowerL f.mime) = true :=
        List.contains_iff_exists_mem_beq.mpr ⟨_, h, by simp⟩
      rw [if_pos hc]
  · intro s f env pdfLoadOk pages readOk ocrSvc mdSvc h
    rw [handleFileUpload_unsupported _ _ _ _ _ _ _ _ h]
    exact ⟨rfl, rfl⟩

/-- C6 witness: an upper-cased image declaration is accepted. -/
theorem c6_witness :
    classifyFile ⟨"a.png".toList, "IMAGE/PNG".toList⟩ = FileKind.image :=
  (c6_dispatch.2.1 ⟨"a.png".toList, "IMAGE/PNG".toList⟩ (by decide)).mpr (by decide)

/-- C9: every speak request carries exactly the trimmed plain-text content
extracted from the sanitized rendering of the translated markup, with the
selected target language code; and the two visual panes are bound to the
sanitized rendering of their buffers. -/
theorem c9_sanitize_pipeline (parse sanitize extractContent : List Char → List Char)
    (s : AppState) (c : SpeakCmd)
    (h : (handleSpeakOrStop parse sanitize extractContent s).snd = some c) :
    c.text = trim (extractContent (sanitize (parse s.translatedText)))
    ∧ c.lang = s.targetLanguage.code
    ∧ renderedInputHtml parse sanitize s = sanitize (parse s.inputText)
    ∧ renderedTranslatedHtml parse sanitize s = sanitize (parse s.translatedText) := by
  have hc : c = ⟨trim (extractContent (sanitize (parse s.translatedText))),
      s.targetLanguage.code⟩ := by
    simp only [handleSpeakOrStop] at h
    split at h
    · simp at h
    · split at h
      · simp at h
      · split at h
        · split at h
          · simp at h
            exact h.symm
          · simp at h
        · simp at h
  rw [hc]
  exact ⟨rfl, rfl, rfl, rfl⟩

/-- The identity, standing in for a concrete parse/sanitize/extract
triple. -/
def idL (l : List Char) : List Char := l

/-- A state ready for a speak click: TTS supported, nothing playing,
non-empty translated text. -/
def demoSpeakState : AppState :=
  { demoState with
      isSpeaking := false
      isSynthesizing := false
      translatedText := "안전 제일".toList }

/-- C9 witness: the statement at a concrete state and request. -/
theorem c9_witness :
    (⟨"안전 제일".toList, "en-US".toList⟩ : SpeakCmd).text
      = trim (idL (idL (idL demoSpeakState.translatedText)))
    ∧ (⟨"안전 제일".toList, "en-US".toList⟩ : SpeakCmd).lang
      = demoSpeakState.targetLanguage.code
    ∧ renderedInputHtml idL idL demoSpeakState = idL (idL demoSpeakState.inputText)
    ∧ renderedTranslatedHtml idL idL demoSpeakState = idL (idL demoSpeakState.translatedText) :=
  c9_sanitize_pipeline idL idL idL demoSpeakState
    ⟨"안전 제일".toList, "en-US".toList⟩ (by decide)

/-- The ingestion state outcome of the image arm does not depend on the
file record: the declared MIME type is only forwarded to the OCR request
and the file name appears in no state update of this arm. -/
theorem imageBranch_fst_file_invariant (s1 : AppState) (f1 f2 : UploadFile)
    (env : Option (List Char)) (readOk : Bool) (ocrSvc mdSvc : SvcOutcome) :
    (imageBranch s1 f1 env readOk ocrSvc mdSvc).fst
      = (imageBranch s1 f2 env readOk ocrSvc mdSvc).fst := by
  unfold imageBranch
  by_cases hro : readOk = false
  · simp [hro]
  · rw [if_neg hro, if_neg hro]
    rw [show extractTextFromImageData env [] f2.mime ocrSvc
      = extractTextFromImageData env [] f1.mime ocrSvc from rfl]
    cases hres : (extractTextFromImageData env [] f1.mime ocrSvc).result with
    | error e => simp [hres]
    | ok rawText =>
      by_cases hemp : (trim rawText).isEmpty
      · simp [hres, hemp]
      · simp only [hres, hemp, Bool.not_false, if_true]
        cases hmd : (convertTextToMarkdown env rawText mdSvc).result with
        | ok md => simp [hmd]
        | error e => simp [hmd]

/-- The image arm always opens its call list with the OCR call when the
credential check passes. -/
theorem imageBranch_calls_head (s1 : AppState) (f : UploadFile) (env : Option (List Char))
    (ocrSvc mdSvc : SvcOutcome)
    (hc : (extractTextFromImageData env [] f.mime ocrSvc).called = true) :
    (imageBranch s1 f env true ocrSvc mdSvc).snd.head? = some (SvcCall.ocr f.mime) := by
  unfold imageBranch
  rw [if_neg (by simp)]
  simp only [hc, if_true]
  cases hres : (extractTextFromImageData env [] f.mime ocrSvc).result with
  | error e => simp [hres]
  | ok rawText =>
    by_cases hemp : (trim rawText).isEmpty
    · simp [hres, hemp]
    · simp only [hres, hemp, Bool.not_false, if_true]
      cases hmd : (convertTextToMarkdown env rawText mdSvc).result with
      | ok md => simp [hmd, List.singleton_append]
      | error e => simp [hmd, List.singleton_append]

/-- C10: a file whose declared MIME type is `image/jpg` — a non-standard
alias absent from the spec's accepted list — is dispatched to the image
arm, its (base64-encoded) payload is sent to OCR with that declared type,
and the resulting state is exactly the state produced for the same file
declared as `image/jpeg`. -/
theorem c10_image_jpg (s : AppState) (n : List Char) (env : Option (List Char))
    (ocrSvc mdSvc : SvcOutcome) (hkey : keyConfigured env = true) :
    classifyFile ⟨n, "image/jpg".toList⟩ = FileKind.image
    ∧ (handleFileUpload s ⟨n, "image/jpg".toList⟩ env true [] true ocrSvc mdSvc).snd.head?
        = some (SvcCall.ocr ("image/jpg".toList))
    ∧ (handleFileUpload s ⟨n, "image/jpg".toList⟩ env true [] true ocrSvc mdSvc).fst
        = (handleFileUpload s ⟨n, "image/jpeg".toList⟩ env true [] true ocrSvc mdSvc).fst := by
  have hcj : classifyFile ⟨n, "image/jpg".toList⟩ = FileKind.image := rfl
  have hcjeg : classifyFile ⟨n, "image/jpeg".toList⟩ = FileKind.image := rfl
  have hcalled : (extractTextFromImageData env [] ("image/jpg".toList) ocrSvc).called = true := by
    unfold extractTextFromImageData
    rw [hkey]
    cases ocrSvc <;> simp
  refine ⟨hcj, ?_, ?_⟩
  · rw [handleFileUpload_image _ _ _ _ _ _ _ _ hcj]
    exact imageBranch_calls_head _ ⟨n, "image/jpg".toList⟩ _ _ _ hcalled
  · rw [handleFileUpload_image _ _ _ _ _ _ _ _ hcj,
      handleFileUpload_image _ _ _ _ _ _ _ _ hcjeg]
    exact imageBranch_fst_file_invariant _ _ _ _ _ _ _

/-- C10 witness: a concrete `image/jpg` upload issues the OCR call with
the declared type. -/
theorem c10_witness :
    (handleFileUpload demoState ⟨"a.jpg".toList, "image/jpg".toList⟩ (some ("k".toList)) true []
        true (.ok ("x".toList)) (.ok ("y".toList))).snd.head?
      = some (SvcCall.ocr ("image/jpg".toList)) :=
  (c10_image_jpg demoState ("a.jpg".toList) (some ("k".toList)) (.ok ("x".toList))
    (.ok ("y".toList)) (by decide)).2.1

end TBM
